import Mathlib

/-!
Shallow embedding of the Task core of a record/replay debugger
(source: src/Task.cc), covering:

* wait-status decoding (pending_sig_from_status, stop_sig_from_status),
* debug-register programming (set_debug_regs),
* syscall-exit shadow-state hooks (on_syscall_exit_arch),
* the post-stop normalizer (did_waitpid, fixup_syscall_registers),
* the wait/interrupt protocol (wait, resume_execution),
* remote memory I/O (read_bytes_fallible, write_bytes_helper and the
  word-aligned ptrace fallback).

Machine integers are modelled as Nat with explicit masking where the
source masks.  Fallible kernel interactions (ptrace, pread64, pwrite64)
are driven by explicit oracle parameters; a call that the source treats
as fatal (ASSERT / FATAL) makes the embedded function return none.
External collaborators (AddressSpace, FdTable, PerfCounters, RecordTask)
are out of scope of the source file and appear only through the narrow
oracle interfaces the Task code consumes.
-/

namespace RRTask

/-- Tracee CPU mode, from kernel_abi (declared outside src): the two
x86 modes the source dispatches on. -/
inductive SupportedArch where
  | x86
  | x86_64
deriving DecidableEq, Repr

/-- Linux SIGTRAP. -/
def SIGTRAP : Nat := 5
/-- Linux SIGSTOP. -/
def SIGSTOP : Nat := 19
/-- Linux PTRACE_EVENT_EXIT. -/
def PTRACE_EVENT_EXIT : Nat := 6
/-- Linux PTRACE_EVENT_EXEC. -/
def PTRACE_EVENT_EXEC : Nat := 4
/-- Linux PTRACE_EVENT_STOP. -/
def PTRACE_EVENT_STOP : Nat := 128
/-- Linux POLL_IN si_code value. -/
def POLL_IN : Nat := 1
/-- x86 TF (trap) flag, bit 8 of the flags register. -/
def X86_TF_FLAG : Nat := 0x100

/-- Modelled from the spec: wait_status packing (exit event bits, stop
signal, ptrace event code).  WIFSTOPPED: low byte is 0x7f.  The accessor
itself (stopped_from_status) is declared in Task.h, outside src. -/
def stopped_from_status (status : Nat) : Bool :=
  status &&& 0xff == 0x7f

/-- Modelled from the spec: WSTOPSIG, the stop signal byte of a packed
wait status (bits 8..15). -/
def wstopsig (status : Nat) : Nat :=
  (status >>> 8) &&& 0xff

/-- Modelled from the spec: the ptrace event code packed into bits
16..23 of a wait status (ptrace_event_from_status is declared in Task.h,
outside src; the packing is witnessed in Task.cc by
ptrace_exit_wait_status = (PTRACE_EVENT_EXIT << 16) | 0x857f). -/
def ptrace_event_from_status (status : Nat) : Nat :=
  (status >>> 16) &&& 0xff

/-- Task.cc: the synthesized PTRACE_EVENT_EXIT wait status. -/
def ptrace_exit_wait_status : Nat := (PTRACE_EVENT_EXIT <<< 16) ||| 0x857f

/-- Task::stop_sig_from_status: ASSERT(stopped_from_status(status)) then
WSTOPSIG(status).  The failed assertion (a fatal abort) is none. -/
def stop_sig_from_status (status : Nat) : Option Nat :=
  if stopped_from_status status then some (wstopsig status) else none

/-- Task::pending_sig_from_status, translated from Task.cc.  The mask
~0x80 of the C source is the 32-bit complement of 0x80. -/
def pending_sig_from_status (status : Nat) : Option Nat :=
  if status == 0 then
    some 0
  else
    match stop_sig_from_status status with
    | none => none
    | some sig =>
      if sig == (SIGTRAP ||| 0x80) then
        some 0
      else if sig == SIGTRAP then
        some (if ptrace_event_from_status status != 0 then 0 else SIGTRAP)
      else
        some (sig &&& 0xffffff7f)

/-- Claim-shaped restatement of the pending-signal rules, written from
the claim text: no pending signal for status 0, for a TRACESYSGOOD
syscall trap (SIGTRAP|0x80) and for a SIGTRAP that carries a ptrace
event; a plain SIGTRAP is reported as SIGTRAP; any other stop signal is
reported with its high bit (0x80) masked off. -/
def pending_sig_claim (status : Nat) : Option Nat :=
  if status == 0 then
    some 0
  else if !stopped_from_status status then
    none
  else
    let sig := wstopsig status
    if sig == (SIGTRAP ||| 0x80) then
      some 0
    else if sig == SIGTRAP && ptrace_event_from_status status != 0 then
      some 0
    else if sig == SIGTRAP then
      some SIGTRAP
    else
      some (sig &&& 0x7f)

/-! ### Debug registers (Task::set_debug_regs) -/

/-- A watchpoint request: address, width in bytes and watch type
(the 2-bit x86 DR7 type encoding; WatchType is declared in
AddressSpace.h, outside src: EXEC = 0, WRITE = 1, READWRITE = 3). -/
structure WatchConfig where
  addr : Nat
  num_bytes : Nat
  type : Nat
deriving DecidableEq, Repr

/-- num_bytes_to_dr_len from Task.cc: the 2-bit DR7 length encoding;
an unsupported size is FATAL (none). -/
def num_bytes_to_dr_len (num_bytes : Nat) : Option Nat :=
  match num_bytes with
  | 1 => some 0x00
  | 2 => some 0x01
  | 4 => some 0x03
  | 8 => some 0x02
  | _ => none

/-- Fallibility oracle for the PTRACE_POKEUSER writes set_debug_regs
performs: addrPokeOk i tells whether the write of the i-th address into
DR0..DR3 succeeds, dr7PokeOk whether the final DR7 write succeeds.  The
two zeroing writes go through ptrace_if_alive, whose failure the source
ignores; they are modelled as always applied. -/
structure DebugRegsEnv where
  addrPokeOk : Nat → Bool
  dr7PokeOk : Bool

/-- The DR7 bits contributed by slot i holding reg: local-enable bit at
2*i, type at 16 + 4*i, length at 18 + 4*i (the DebugControl bitfield of
Task.cc). -/
def dr7_bits_for (i : Nat) (type len : Nat) : Nat :=
  (1 <<< (2 * i)) ||| (type <<< (16 + 4 * i)) ||| (len <<< (18 + 4 * i))

/-- The DR0..DR3 programming loop of set_debug_regs.  Returns the
success flag, the accumulated trace of successful user-area debug
register writes (regno, value) and nothing on FATAL.  i is the slot
index (the dr counter of the source). -/
def set_debug_regs_loop (env : DebugRegsEnv) :
    List WatchConfig → Nat → Nat → List (Nat × Nat) →
    Option (Bool × List (Nat × Nat))
  | [], _, dr7, trace =>
    -- final write of the packed DR7; the operation succeeds iff it does
    if env.dr7PokeOk then
      some (true, trace ++ [(7, dr7)])
    else
      some (false, trace)
  | reg :: rest, i, dr7, trace =>
    if env.addrPokeOk i then
      match num_bytes_to_dr_len reg.num_bytes with
      | none => none
      | some len =>
        set_debug_regs_loop env rest (i + 1)
          (dr7 ||| dr7_bits_for i reg.type len) (trace ++ [(i, reg.addr)])
    else
      -- first failing DR0..DR3 write: return failure without writing DR7
      some (false, trace)

/-- Task::set_debug_regs.  Always zeroes DR6 and DR7 first (two
ptrace_if_alive POKEUSER writes), rejects more than four watchpoints,
then programs DR0..DR3 and finally DR7. -/
def set_debug_regs (env : DebugRegsEnv) (regs : List WatchConfig) :
    Option (Bool × List (Nat × Nat)) :=
  let trace0 : List (Nat × Nat) := [(6, 0), (7, 0)]
  if regs.length > 4 then
    some (false, trace0)
  else
    set_debug_regs_loop env regs 0 0 trace0

/-- The value DR7 holds after a trace of user-area writes (the last
write to register 7, starting from an arbitrary prior value being
irrelevant because every trace of set_debug_regs starts by zeroing). -/
def dr7_value (trace : List (Nat × Nat)) : Nat :=
  trace.foldl (fun acc p => if p.1 == 7 then p.2 else acc) 0

/-! ### ExitHooks (Task::on_syscall_exit_arch) -/

/-- The registers a syscall-exit hook inspects: the raw argument words
and the syscall result (signed, as syscall_result_signed returns). -/
structure SyscallRegs where
  arg1 : Nat
  arg2 : Nat
  arg3 : Nat
  arg5 : Nat
  syscall_result : Int
deriving DecidableEq, Repr

/-- Modelled from the spec: Registers::syscall_failed (declared in
Registers.h, outside src) reports whether the registers show a failed
syscall, i.e. the result is a small negative errno value. -/
def syscall_failed (r : SyscallRegs) : Bool :=
  r.syscall_result < 0 && -4096 < r.syscall_result

/-- Per-arch syscall numbers and fcntl command values, from kernel_abi
(outside src).  Syscalls a given arch lacks carry distinct negative
sentinel values so the case labels stay distinct, as in the source. -/
structure ArchSyscalls where
  brk : Int
  mmap : Int
  mmap2 : Int
  mprotect : Int
  mremap : Int
  munmap : Int
  shmdt : Int
  madvise : Int
  ipc : Int
  set_thread_area : Int
  prctl : Int
  dup : Int
  dup2 : Int
  dup3 : Int
  fcntl : Int
  fcntl64 : Int
  close : Int
  unshare : Int
  write : Int
  writev : Int
  DUPFD : Nat
  DUPFD_CLOEXEC : Nat

/-- The x86-64 Linux syscall table entries used by the hook. -/
def x64Syscalls : ArchSyscalls where
  brk := 12
  mmap := 9
  mmap2 := -2
  mprotect := 10
  mremap := 25
  munmap := 11
  shmdt := 67
  madvise := 28
  ipc := -3
  set_thread_area := 205
  prctl := 157
  dup := 32
  dup2 := 33
  dup3 := 292
  fcntl := 72
  fcntl64 := -4
  close := 3
  unshare := 272
  write := 1
  writev := 20
  DUPFD := 0
  DUPFD_CLOEXEC := 1030

/-- The 32-bit x86 Linux syscall table entries used by the hook. -/
def x86Syscalls : ArchSyscalls where
  brk := 45
  mmap := 90
  mmap2 := 192
  mprotect := 125
  mremap := 163
  munmap := 91
  shmdt := 398
  madvise := 219
  ipc := 117
  set_thread_area := 243
  prctl := 172
  dup := 41
  dup2 := 63
  dup3 := 330
  fcntl := 55
  fcntl64 := 221
  close := 6
  unshare := 310
  write := 4
  writev := 146
  DUPFD := 0
  DUPFD_CLOEXEC := 1030

/-- Arch dispatch of the syscall table (RR_ARCH_FUNCTION). -/
def archSyscalls : SupportedArch → ArchSyscalls
  | .x86 => x86Syscalls
  | .x86_64 => x64Syscalls

/-- Linux SHMDT operation code of the ipc multiplexer syscall. -/
def SHMDT : Nat := 22
/-- Linux PR_SET_NAME prctl code. -/
def PR_SET_NAME : Nat := 15
/-- Linux CLONE_FILES flag. -/
def CLONE_FILES : Nat := 0x400

/-- A shadow-state update the hook performs on the Task's aggregates:
AddressSpace (protect/remap/unmap/advise), thread_areas
(setThreadArea), prname (setPrname) and FdTable (didDup, didClose,
swapFdTable for unshare, didWrite).  The hook performing no update
leaves all four components unchanged. -/
inductive ShadowAction where
  | protect (addr len prot : Nat)
  | remap (oldAddr oldLen newAddr newLen : Nat)
  | unmap (addr len : Nat)
  | advise (addr len advice : Nat)
  | setThreadArea (tlsAddr : Nat)
  | setPrname (nameAddr : Nat)
  | didDup (src newFd : Nat)
  | didClose (fd : Nat)
  | swapFdTable
  | didWrite (fd : Nat) (ranges : List (Nat × Nat))
deriving DecidableEq, Repr

/-- Oracles for the tracee-memory reads and AddressSpace queries the
hook makes: mapping_end_of addr is the end of the mapping that
AddressSpace::mapping_of finds for addr (its start must equal addr or
the source ASSERTs), read_iovecs models reading the iovec array for
writev. -/
structure ExitHookEnv where
  mapping_start_of : Nat → Nat
  mapping_end_of : Nat → Nat
  read_iovecs : Nat → Nat → List (Nat × Nat)

/-- The writev range-collection loop of Task.cc: walks the iovecs,
clamping each to the bytes actually written and dropping empty
contributions. -/
def writev_ranges (written : Int) (iovecs : List (Nat × Nat)) :
    List (Nat × Nat) :=
  match iovecs with
  | [] => []
  | v :: rest =>
    let amount : Int := min written (v.2 : Int)
    if 0 < amount then
      (v.1, amount.toNat) :: writev_ranges (written - amount) rest
    else
      writev_ranges written rest

/-- Task::on_syscall_exit_arch, translated case by case.  The result is
the list of shadow-state updates performed; none models a failed ASSERT.
The session's syscall-performed counter (not part of the shadow state)
is not tracked. -/
def on_syscall_exit_arch (A : ArchSyscalls) (env : ExitHookEnv)
    (syscallno : Int) (r : SyscallRegs) : Option (List ShadowAction) :=
  if syscall_failed r && !(syscallno == A.mprotect) then
    some []
  else if syscallno == A.brk || syscallno == A.mmap || syscallno == A.mmap2 then
    some []
  else if syscallno == A.mprotect then
    some [.protect r.arg1 r.arg2 r.arg3]
  else if syscallno == A.mremap then
    some [.remap r.arg1 r.arg2 r.syscall_result.toNat r.arg3]
  else if syscallno == A.munmap then
    some [.unmap r.arg1 r.arg2]
  else if syscallno == A.shmdt then
    if env.mapping_start_of r.arg1 == r.arg1 then
      some [.unmap r.arg1 (env.mapping_end_of r.arg1 - r.arg1)]
    else
      none
  else if syscallno == A.madvise then
    some [.advise r.arg1 r.arg2 r.arg3]
  else if syscallno == A.ipc then
    if r.arg1 == SHMDT then
      if env.mapping_start_of r.arg5 == r.arg5 then
        some [.unmap r.arg5 (env.mapping_end_of r.arg5 - r.arg5)]
      else
        none
    else
      some []
  else if syscallno == A.set_thread_area then
    some [.setThreadArea r.arg1]
  else if syscallno == A.prctl then
    if r.arg1 == PR_SET_NAME then
      some [.setPrname r.arg2]
    else
      some []
  else if syscallno == A.dup || syscallno == A.dup2 || syscallno == A.dup3 then
    some [.didDup r.arg1 r.syscall_result.toNat]
  else if syscallno == A.fcntl64 || syscallno == A.fcntl then
    if r.arg2 == A.DUPFD || r.arg2 == A.DUPFD_CLOEXEC then
      some [.didDup r.arg1 r.syscall_result.toNat]
    else
      some []
  else if syscallno == A.close then
    some [.didClose r.arg1]
  else if syscallno == A.unshare then
    if r.arg1 &&& CLONE_FILES != 0 then
      some [.swapFdTable]
    else
      some []
  else if syscallno == A.write then
    let ranges :=
      if 0 < r.syscall_result then [(r.arg2, r.syscall_result.toNat)] else []
    some [.didWrite r.arg1 ranges]
  else if syscallno == A.writev then
    if r.syscall_result < 0 then
      none
    else
      some [.didWrite r.arg1
        (writev_ranges r.syscall_result (env.read_iovecs r.arg2 r.arg3))]
  else
    some []

/-! ### PostStopNormalizer (Task::did_waitpid) -/

/-- The general-register fields the normalizer touches.  Register words
are 64-bit Nat values; the source works through Registers accessors
(Registers.h, outside src) whose bit meaning is standard x86. -/
structure Registers where
  arch : SupportedArch
  ip : Nat
  r11 : Nat
  cx : Nat
  flags : Nat
  orig_syscallno : Int
deriving DecidableEq, Repr

/-- fixup_syscall_registers from Task.cc: on x86-64 clear the TF bit in
R11 (mask ~X86_TF_FLAG over the 64-bit word), force RCX to -1 (all ones
as a 64-bit word) and set the flags to 0x246; on x86 set EFLAGS
to 0x246. -/
def fixup_syscall_registers (r : Registers) : Registers :=
  if r.arch == SupportedArch.x86_64 then
    { r with
      r11 := r.r11 &&& 0xfffffffffffffeff
      cx := 0xffffffffffffffff
      flags := 0x246 }
  else
    { r with flags := 0x246 }

/-- The siginfo fields the wait protocol forges or stores. -/
structure Siginfo where
  si_signo : Nat
  si_fd : Int
  si_code : Nat
deriving DecidableEq, Repr

/-- The Task state touched by the resume/wait/did_waitpid protocol.
session_is_recording mirrors session().is_recording();
ev_is_syscall_event and ev_is_sigreturn are the RecordTask event
queries made by is_in_non_sigreturn_exit_syscall (RecordTask is outside
src; the two booleans are modelled from the spec's notion of a
sigreturn-family syscall event).  last_setregs instruments the
PTRACE_SETREGS write-back performed at the end of did_waitpid: none
until did_waitpid sends one, then the register bank sent. -/
structure TaskState where
  registers : Registers
  ticks : Nat
  is_stopped : Bool
  unstable : Bool
  wait_status : Nat
  pending_siginfo : Siginfo
  seen_ptrace_exit_event : Bool
  detected_unexpected_exit : Bool
  extra_registers_known : Bool
  address_of_last_execution_resume : Nat
  session_is_recording : Bool
  ev_is_syscall_event : Bool
  ev_is_sigreturn : Bool
  last_setregs : Option Registers
deriving DecidableEq, Repr

/-- Oracles for the kernel interactions inside did_waitpid: the tick
delta the perf counter reports, the PTRACE_GETREGS result (none models
ESRCH: the tracee died), the PTRACE_GETSIGINFO result (none models
ESRCH) and the AddressSpace breakpoint table query
get_breakpoint_type_at_addr != BKPT_NONE. -/
structure PtraceEnv where
  more_ticks : Nat
  getregs : Option Registers
  getsiginfo : Option Siginfo
  breakpoint_at : Nat → Bool

/-- x86 breakpoint instruction length (int3), the amount
increment_by_bkpt_insn_length adds for either arch. -/
def bkpt_insn_length (_a : SupportedArch) : Nat := 1

/-- is_in_non_sigreturn_exit_syscall from Task.cc: a stop whose signal
is SIGTRAP|0x80 that is not the exit of a sigreturn-family syscall
(during recording the RecordTask event is consulted).  stop_sig()
ASSERTs the status is a stop status; its failure is none. -/
def is_in_non_sigreturn_exit_syscall (t : TaskState) : Option Bool :=
  match stop_sig_from_status t.wait_status with
  | none => none
  | some sig =>
    if sig != (SIGTRAP ||| 0x80) then
      some false
    else if t.session_is_recording then
      some (!t.ev_is_syscall_event || !t.ev_is_sigreturn)
    else
      some true

/-- Step 1 of did_waitpid: refresh the register cache via PTRACE_GETREGS
unless the stop is a PTRACE_EVENT_EXEC (the arch may have just changed);
a GETREGS death (ESRCH) keeps the old cache and rewrites the status to
the synthesized exit status. -/
def dw_refresh_regs (t : TaskState) (env : PtraceEnv) (status0 : Nat) :
    Registers × Nat :=
  if ptrace_event_from_status status0 != PTRACE_EVENT_EXEC then
    match env.getregs with
    | some r => (r, status0)
    | none => (t.registers, ptrace_exit_wait_status)
  else
    (t.registers, status0)

/-- Step 2 of did_waitpid: capture the pending siginfo when the status
reports a pending signal, preferring the caller-provided one, else
PTRACE_GETSIGINFO; a GETSIGINFO death rewrites the status to the
synthesized exit status. -/
def dw_siginfo_step (t : TaskState) (env : PtraceEnv)
    (override_siginfo : Option Siginfo) (pending1 status1 : Nat) :
    Siginfo × Nat :=
  if pending1 != 0 then
    match override_siginfo with
    | some si => (si, status1)
    | none =>
      match env.getsiginfo with
      | some si => (si, status1)
      | none => (t.pending_siginfo, ptrace_exit_wait_status)
  else
    (t.pending_siginfo, status1)

/-- Step 3 of did_waitpid: clear the single-step flag from the cached
flags so it never leaks into recorded state, marking the registers
dirty when it was set. -/
def dw_singlestep_step (regs1 : Registers) : Registers × Bool :=
  if regs1.flags &&& X86_TF_FLAG != 0 then
    ({ regs1 with flags := regs1.flags &&& 0xfffffffffffffeff }, true)
  else
    (regs1, false)

/-- Step 4 of did_waitpid: when the AddressSpace has a breakpoint at the
last resume address, the pending signal is SIGTRAP and there is no
ptrace event, ASSERT the IP is one breakpoint length past the resume
address and that no ticks were retired, then restore original_syscallno
to its pre-resume value (the kernel resets it to -1 when a breakpoint
fires immediately on resume).  Failed ASSERTs are none. -/
def dw_bkpt_step (t : TaskState) (env : PtraceEnv) (more_ticks : Nat)
    (original_syscallno : Int) (regs3 : Registers) (need3 : Bool)
    (status2 pending2 : Nat) : Option (Registers × Bool) :=
  let bkpt_guard := env.breakpoint_at t.address_of_last_execution_resume &&
    pending2 == SIGTRAP && ptrace_event_from_status status2 == 0
  if bkpt_guard &&
      !(regs3.ip ==
        t.address_of_last_execution_resume + bkpt_insn_length regs3.arch) then
    none
  else if bkpt_guard && more_ticks != 0 then
    none
  else
    some (if bkpt_guard then
            ({ regs3 with orig_syscallno := original_syscallno }, true)
          else
            (regs3, need3))

/-- The final stage of did_waitpid: apply the syscall-exit register
normalization when the committed stop is a non-sigreturn syscall exit,
and write the registers back via PTRACE_SETREGS when any step marked
them dirty.  t5 already carries the committed wait status and the
register bank produced by the earlier steps; need4 tells whether an
earlier step marked the registers dirty. -/
def dw_finish (t5 : TaskState) (need4 : Bool) : Option TaskState :=
  match is_in_non_sigreturn_exit_syscall t5 with
  | none => none
  | some exitFix =>
    let regs5 :=
      if exitFix then fixup_syscall_registers t5.registers else t5.registers
    let need5 := need4 || exitFix
    let t6 := { t5 with registers := regs5 }
    some (if need5 then { t6 with last_setregs := some regs5 } else t6)

/-- Task::did_waitpid, translated step by step from Task.cc.  The
incoming status can be rewritten to ptrace_exit_wait_status when a
ptrace call reports ESRCH.  ptrace_event() for the GETREGS-after-exec
skip is modelled from the spec as the event of the stop being committed.
A failed ASSERT is none.  Returns the new task state; last_setregs
records whether (and with which bank) the normalized registers were
written back via PTRACE_SETREGS. -/
def did_waitpid (t : TaskState) (env : PtraceEnv) (status0 : Nat)
    (override_siginfo : Option Siginfo) : Option TaskState :=
  let more_ticks := env.more_ticks
  let ticks1 := t.ticks + more_ticks
  let original_syscallno := t.registers.orig_syscallno
  -- refresh the register cache unless this stop is a PTRACE_EVENT_EXEC
  let step1 := dw_refresh_regs t env status0
  let regs1 := step1.1
  let status1 := step1.2
  -- capture the pending siginfo if the status reports a pending signal
  match pending_sig_from_status status1 with
  | none => none
  | some pending1 =>
  let step2 := dw_siginfo_step t env override_siginfo pending1 status1
  let siginfo2 := step2.1
  let status2 := step2.2
  let seen2 := t.seen_ptrace_exit_event ||
    (ptrace_event_from_status status2 == PTRACE_EVENT_EXIT)
  -- never let the single-step flag leak into recorded state
  let step3 := dw_singlestep_step regs1
  let regs3 := step3.1
  let need3 := step3.2
  match pending_sig_from_status status2 with
  | none => none
  | some pending2 =>
  -- restore original_syscallno across a breakpoint that fired on resume
  match dw_bkpt_step t env more_ticks original_syscallno regs3 need3
      status2 pending2 with
  | none => none
  | some step4 =>
  let regs4 := step4.1
  let need4 := step4.2
  -- normalize nondeterministic registers when exiting a syscall
  let t5 : TaskState :=
    { t with
      registers := regs4
      ticks := ticks1
      is_stopped := true
      wait_status := status2
      pending_siginfo := siginfo2
      seen_ptrace_exit_event := seen2
      last_setregs := none }
  dw_finish t5 need4

/-! ### WaitLoop (Task::wait) and ResumeEngine (Task::resume_execution) -/

/-- Modelled from the spec: PerfCounters::TIME_SLICE_SIGNAL, the
synthetic scheduler signal (SIGSTKFLT in the implementation; PerfCounters
is outside src). -/
def TIME_SLICE_SIGNAL : Nat := 16

/-- is_signal_triggered_by_ptrace_interrupt from Task.cc. -/
def is_signal_triggered_by_ptrace_interrupt (sig : Nat) : Bool :=
  sig == SIGTRAP || sig == SIGSTOP || sig == 0

/-- One outcome of a blocking waitpid call inside the wait loop: either
waitpid returned the tid with a status, or it was interrupted (EINTR, by
the deadline alarm) and the subsequent zombie probe of the thread-group
leader reported the given answer. -/
inductive WaitOutcome where
  | ret (status : Nat)
  | eintr (leaderZombie : Bool)
deriving DecidableEq, Repr

/-- The waitpid loop of Task::wait, driven by the sequence of waitpid
outcomes.  Returns the final status and whether a PTRACE_INTERRUPT was
sent; an exhausted outcome list models a waitpid that never returns. -/
def wait_loop : List WaitOutcome → Bool → Option (Nat × Bool)
  | [], _ => none
  | WaitOutcome.ret status :: _, sent => some (status, sent)
  | WaitOutcome.eintr z :: rest, sent =>
    if z then
      -- dead thread-group leader: fake a PTRACE_EVENT_EXIT and break
      some (ptrace_exit_wait_status, sent)
    else
      -- send PTRACE_INTERRUPT the first time through, then keep waiting
      wait_loop rest true

/-- Environment of one Task::wait call: the waitpid outcome sequence,
the did_waitpid oracles and the ticks-interrupt fd reported by
hpc.ticks_fd(). -/
structure WaitEnv where
  outcomes : List WaitOutcome
  penv : PtraceEnv
  ticks_fd : Int

/-- Result of Task::wait: the new task state, whether waitpid was
actually entered, and whether the scheduler was told to expire the
current timeslice. -/
structure WaitResult where
  task : TaskState
  called_waitpid : Bool
  expired_timeslice : Bool
deriving DecidableEq, Repr

/-- Task::wait, translated from Task.cc.  If an unexpected (SIGKILL)
exit was detected at resume time, a PTRACE_EVENT_EXIT stop is committed
immediately, the flag is cleared and waitpid is never called.  Otherwise
the waitpid loop runs; a non-stopping status is rewritten to a
synthesized exit (ASSERTing no exit event was already seen), and a stop
that raced with our PTRACE_INTERRUPT is rewritten to the synthetic
time-slice signal with a forged POLL_IN siginfo, expiring the timeslice
when recording.  The committed stop goes through did_waitpid. -/
def wait (t : TaskState) (env : WaitEnv) : Option WaitResult :=
  if t.unstable then
    none
  else if t.detected_unexpected_exit then
    match did_waitpid t env.penv ptrace_exit_wait_status none with
    | none => none
    | some t1 =>
      some { task := { t1 with detected_unexpected_exit := false }
             called_waitpid := false
             expired_timeslice := false }
  else
    match wait_loop env.outcomes false with
    | none => none
    | some (status, sent) =>
      if !stopped_from_status status && t.seen_ptrace_exit_event then
        none
      else
      let status1 :=
        if !stopped_from_status status then ptrace_exit_wait_status else status
      if sent && ptrace_event_from_status status1 == PTRACE_EVENT_STOP &&
          is_signal_triggered_by_ptrace_interrupt (wstopsig status1) then
        let status2 := (TIME_SLICE_SIGNAL <<< 8) ||| 0x7f
        let si : Siginfo :=
          { si_signo := TIME_SLICE_SIGNAL
            si_fd := env.ticks_fd
            si_code := POLL_IN }
        match did_waitpid t env.penv status2 (some si) with
        | none => none
        | some t1 =>
          some { task := t1
                 called_waitpid := true
                 expired_timeslice := t.session_is_recording }
      else
        match did_waitpid t env.penv status1 none with
        | none => none
        | some t1 =>
          some { task := t1
                 called_waitpid := true
                 expired_timeslice := false }

/-- Environment of one Task::resume_execution call during recording:
the result of the race-guard non-blocking waitpid (none when it
returned 0, some status when it reported the tid). -/
structure ResumeEnv where
  nonblock_wait : Option Nat

/-- Task::resume_execution without the trailing blocking wait (the
RESUME_WAIT case simply calls wait on the returned state).  Records
address_of_last_execution_resume, runs the recording-only race guard,
and either marks detected_unexpected_exit (suppressing the ptrace
continuation request) or issues the request.  The returned Bool tells
whether the ptrace continuation request was issued.  The perf-counter
reprogramming and debug-status zeroing touch only external collaborators
and are not tracked. -/
def resume_execution (t : TaskState) (env : ResumeEnv) :
    Option (TaskState × Bool) :=
  let t := { t with address_of_last_execution_resume := t.registers.ip }
  let raceHit : Option Bool :=
    if t.session_is_recording then
      match env.nonblock_wait with
      | some status =>
        if ptrace_event_from_status status != PTRACE_EVENT_EXIT then
          none
        else
          some true
      | none => some false
    else
      some false
  match raceHit with
  | none => none
  | some hit =>
    let t := if hit then { t with detected_unexpected_exit := true } else t
    some ({ t with is_stopped := false, extra_registers_known := false }, !hit)

/-! ### RemoteMemory (read_bytes_fallible, write_bytes_helper and the
ptrace fallback) -/

/-- Tracee memory, byte-addressed. -/
def Mem : Type := Nat → Nat

/-- Overwrite the bytes at [addr, addr + buf.length) with buf. -/
def updateRange (mem : Mem) (addr : Nat) (buf : List Nat) : Mem :=
  fun a => if addr ≤ a ∧ a < addr + buf.length then buf.getD (a - addr) 0 else mem a

/-- Host word size used by the ptrace fallback (sizeof(long)). -/
def word_size : Nat := 8

/-- Task::read_bytes_ptrace: word-aligned PTRACE_PEEKDATA loop.  wordOk
tells whether PEEKDATA succeeds on a given word-aligned address (errno
left clear); a failing peek ends the loop.  Returns the bytes read so
far; the source's return value is their count.  Each iteration reads the
covering word and copies out the requested byte range, which on the byte
level is reading mem at [start, start + length). -/
def read_ptrace_loop (wordOk : Nat → Bool) (mem : Mem) (addr bufSize : Nat)
    (nread : Nat) : List Nat :=
  if _h : nread < bufSize then
    let start := addr + nread
    let start_word := start - start % word_size
    let len := min (word_size - start % word_size) (bufSize - nread)
    if wordOk start_word then
      (List.range len).map (fun j => mem (start + j)) ++
        read_ptrace_loop wordOk mem addr bufSize (nread + len)
    else
      []
  else
    []
termination_by bufSize - nread
decreasing_by
  simp only [word_size] at *
  omega

/-- The byte-level effect of one POKEDATA of write_bytes_ptrace: the
covering word is rewritten, taking bytes [start, start + len) from buf
at offset nwritten and the other bytes of the word from the peeked (or,
for a full word, overwritten) previous contents. -/
def poke_word (mem : Mem) (start_word start len : Nat) (buf : List Nat)
    (nwritten : Nat) : Mem :=
  fun a =>
    if start_word ≤ a ∧ a < start_word + word_size then
      if start ≤ a ∧ a < start + len then buf.getD (nwritten + (a - start)) 0
      else mem a
    else
      mem a

/-- Task::write_bytes_ptrace: word-aligned PEEKDATA/POKEDATA loop.  A
partial word is first peeked (read-modify-write); the errno check after
the peek also fires on an errno left set by an earlier failed poke,
which the loop otherwise ignores while still counting the word.  Returns
the reported byte count and the final memory. -/
def write_ptrace_loop (wordOk : Nat → Bool) (addr : Nat) (buf : List Nat)
    (nwritten : Nat) (errnoSet : Bool) (mem : Mem) : Nat × Mem :=
  if _h : nwritten < buf.length then
    let start := addr + nwritten
    let start_word := start - start % word_size
    let len := min (word_size - start % word_size) (buf.length - nwritten)
    if len < word_size && (errnoSet || !wordOk start_word) then
      (nwritten, mem)
    else
      let mem1 :=
        if wordOk start_word then poke_word mem start_word start len buf nwritten
        else mem
      write_ptrace_loop wordOk addr buf (nwritten + len)
        (errnoSet || !wordOk start_word) mem1
  else
    (nwritten, mem)
termination_by buf.length - nwritten
decreasing_by
  simp only [word_size] at *
  omega

/-- One pread64 outcome on the mem-fd: a successful transfer of n bytes
(errno left clear; the kernel never transfers more than requested) or a
failure (negative return, errno set). -/
inductive PreadRes where
  | ok (n : Nat)
  | err
deriving DecidableEq, Repr

/-- Whether a pread64 outcome is the zero-byte errno-0 result that the
stale-mem-fd workaround reacts to. -/
def pread_is_zero (p : PreadRes) : Bool :=
  match p with
  | PreadRes.ok 0 => true
  | _ => false

/-- The mem-fd loop of Task::read_bytes_fallible, driven by the sequence
of pread64 outcomes.  Returns the source's return value, the bytes read
and the number of mem-fd reopens performed; an exhausted outcome list is
none.  A zero-byte pread with errno 0 while nothing has been read yet
reopens the mem fd and retries; any other non-positive result ends the
call, successfully iff something was already read. -/
def read_memfd_loop (mem : Mem) (addr bufSize : Nat) :
    List PreadRes → Nat → List Nat → Nat → Option (Int × List Nat × Nat)
  | preads, all_read, acc, reopens =>
    if bufSize ≤ all_read then
      some ((all_read : Int), acc, reopens)
    else
      match preads with
      | [] => none
      | PreadRes.err :: _ =>
        if 0 < all_read then
          some ((all_read : Int), acc, reopens)
        else
          some (-1, acc, reopens)
      | PreadRes.ok n :: rest =>
        let n := min n (bufSize - all_read)
        if n = 0 then
          if all_read = 0 then
            read_memfd_loop mem addr bufSize rest 0 acc (reopens + 1)
          else
            some ((all_read : Int), acc, reopens)
        else
          read_memfd_loop mem addr bufSize rest (all_read + n)
            (acc ++ (List.range n).map (fun i => mem (addr + all_read + i)))
            reopens

/-- Environment of a read_bytes_fallible call: whether the per-address-
space mem fd is open, the PEEKDATA accessibility of each word for the
ptrace fallback, and the pread64 outcome sequence for the mem-fd path. -/
structure ReadEnv where
  memFdOpen : Bool
  wordOk : Nat → Bool
  preads : List PreadRes

/-- Task::read_bytes_fallible: zero-size reads return 0 immediately,
the ptrace fallback is used when no mem fd is open, else the pread64
loop with the one-shot-per-zero-result reopen workaround.  Returns the
return value, the bytes read and the reopen count. -/
def read_bytes_fallible (env : ReadEnv) (mem : Mem) (addr bufSize : Nat) :
    Option (Int × List Nat × Nat) :=
  if bufSize = 0 then
    some (0, [], 0)
  else if !env.memFdOpen then
    let bytes := read_ptrace_loop env.wordOk mem addr bufSize 0
    some ((bytes.length : Int), bytes, 0)
  else
    read_memfd_loop mem addr bufSize env.preads 0 [] 0

/-- One pwrite64 outcome through the mem fd: a successful transfer of n
bytes, an EPERM failure (the PaX executable-page case) or any other
failure. -/
inductive PwriteRes where
  | ok (n : Nat)
  | eperm
  | err
deriving DecidableEq, Repr

/-- Environment of a write_bytes_helper call: mem-fd availability, word
accessibility for the ptrace fallback and whether try_replace_pages (the
PaX/SELinux page-replacement workaround) succeeds when attempted; the
pwrite64 outcome sequence is passed alongside. -/
structure WriteEnv where
  memFdOpen : Bool
  wordOk : Nat → Bool
  replaceOk : Bool

/-- The mem-fd branch of Task::write_bytes_helper, recursing on the
pwrite64 outcome sequence.  A zero-byte errno-0 pwrite reopens the mem
fd and restarts write_bytes_helper; the restart re-enters this branch
since the fd was just reopened and the size check is unchanged.  The
safe_pwrite64 PROT_NONE mprotect dance and try_replace_pages rewrite the
destination range and preserve all other bytes. -/
def write_memfd_loop (env : WriteEnv) (mem : Mem) (addr : Nat)
    (buf : List Nat) : List PwriteRes → Option (Bool × Mem)
  | [] => none
  | PwriteRes.ok n :: rest =>
    let n := min n buf.length
    if n = 0 then
      -- zero-byte pwrite with errno 0: reopen the mem fd and retry
      write_memfd_loop env mem addr buf rest
    else
      some (decide (buf.length ≤ n), updateRange mem addr (buf.take n))
  | PwriteRes.eperm :: _ =>
    if env.replaceOk then
      some (true, updateRange mem addr buf)
    else
      some (false, mem)
  | PwriteRes.err :: _ =>
    some (false, mem)

/-- Task::write_bytes_helper: zero-size writes return immediately, the
word-aligned ptrace fallback is used when no mem fd is open, else the
pwrite64 path.  Returns whether the write fully succeeded (the ok
out-flag untouched, no ASSERT) and the final tracee memory. -/
def write_bytes_helper (env : WriteEnv) (mem : Mem) (addr : Nat)
    (buf : List Nat) (pwrites : List PwriteRes) : Option (Bool × Mem) :=
  if buf.length = 0 then
    some (true, mem)
  else if !env.memFdOpen then
    let res := write_ptrace_loop env.wordOk addr buf 0 false mem
    some (decide (buf.length ≤ res.1), res.2)
  else
    write_memfd_loop env mem addr buf pwrites

/-! ## Helper lemmas -/

set_option maxRecDepth 4096 in
theorem land_mask_byte (s : Nat) (hs : s < 256) :
    s &&& 0xffffff7f = s &&& 0x7f := by
  revert hs
  revert s
  decide

theorem wstopsig_lt (status : Nat) : wstopsig status < 256 := by
  have h : (status >>> 8) &&& 0xff ≤ 0xff := Nat.and_le_right
  simpa [wstopsig] using Nat.lt_succ_of_le h

theorem dr7_foldl_const (rest : List (Nat × Nat)) (acc : Nat)
    (h : ∀ p ∈ rest, p.1 ≠ 7) :
    rest.foldl (fun a p => if p.1 == 7 then p.2 else a) acc = acc := by
  induction rest generalizing acc with
  | nil => rfl
  | cons p rest ih =>
    have hp : ¬(p.1 == 7) = true := by
      simpa using h p (by simp)
    simp only [List.foldl_cons, if_neg hp]
    exact ih acc (fun q hq => h q (by simp [hq]))

/-- Specification of the DR0..DR3 programming loop: the trace only
grows, a failing run appends no DR7 write, and the run succeeds exactly
when every slot write and the final DR7 write succeed. -/
theorem set_debug_regs_loop_spec (env : DebugRegsEnv) :
    ∀ (regs : List WatchConfig) (i dr7 : Nat) (trace : List (Nat × Nat))
      (ok : Bool) (tr : List (Nat × Nat)),
      i + regs.length ≤ 4 →
      set_debug_regs_loop env regs i dr7 trace = some (ok, tr) →
      ∃ rest, tr = trace ++ rest ∧
        (ok = false → ∀ p ∈ rest, p.1 ≠ 7) ∧
        (ok = true ↔
          env.dr7PokeOk = true ∧
            ∀ j, j < regs.length → env.addrPokeOk (i + j) = true) := by
  intro regs
  induction regs with
  | nil =>
    intro i dr7 trace ok tr _ hrun
    simp only [set_debug_regs_loop] at hrun
    by_cases h7 : env.dr7PokeOk
    · rw [if_pos h7] at hrun
      injection hrun with h
      injection h with hok htr
      subst hok
      subst htr
      refine ⟨[(7, dr7)], rfl, ?_, ?_⟩
      · intro hfalse; cases hfalse
      · simp [h7]
    · rw [if_neg h7] at hrun
      injection hrun with h
      injection h with hok htr
      subst hok
      subst htr
      refine ⟨[], by simp, fun _ => by simp, ?_⟩
      simp [h7]
  | cons reg rest ih =>
    intro i dr7 trace ok tr hlen hrun
    simp only [set_debug_regs_loop] at hrun
    by_cases hok_i : env.addrPokeOk i
    · rw [if_pos hok_i] at hrun
      cases hlen_case : num_bytes_to_dr_len reg.num_bytes with
      | none => rw [hlen_case] at hrun; cases hrun
      | some len =>
        rw [hlen_case] at hrun
        have hlen' : (i + 1) + rest.length ≤ 4 := by
          simp only [List.length_cons] at hlen; omega
        obtain ⟨rs, hr1, hr2, hr3⟩ := ih (i + 1) _ _ ok tr hlen' hrun
        refine ⟨(i, reg.addr) :: rs, by simp [hr1], ?_, ?_⟩
        · intro hfalse p hp
          rcases List.mem_cons.mp hp with h | h
          · subst h
            simp only [List.length_cons] at hlen
            omega
          · exact hr2 hfalse p h
        · rw [hr3]
          constructor
          · rintro ⟨h7, hall⟩
            refine ⟨h7, fun j hj => ?_⟩
            cases j with
            | zero => simpa using hok_i
            | succ j =>
              have := hall j (by simpa using hj)
              simpa [Nat.add_comm, Nat.add_assoc, Nat.add_left_comm] using this
          · rintro ⟨h7, hall⟩
            refine ⟨h7, fun j hj => ?_⟩
            have := hall (j + 1) (by simpa using hj)
            simpa [Nat.add_comm, Nat.add_assoc, Nat.add_left_comm] using this
    · rw [if_neg hok_i] at hrun
      injection hrun with h
      injection h with hok htr
      subst hok
      subst htr
      refine ⟨[], by simp, fun _ => by simp, ?_⟩
      simp only [Bool.false_eq_true, false_iff, not_and]
      intro _ hall
      have := hall 0 (by simp)
      simp [hok_i] at this

/-- dw_finish output characterization. -/
theorem dw_finish_spec (t5 : TaskState) (need4 : Bool) (t1 : TaskState)
    (hrun : dw_finish t5 need4 = some t1) :
    ∃ b : Bool,
      is_in_non_sigreturn_exit_syscall t1 = some b ∧
      t1.registers =
        (if b then fixup_syscall_registers t5.registers else t5.registers) ∧
      ((need4 || b) = true → t1.last_setregs = some t1.registers) ∧
      t1.wait_status = t5.wait_status := by
  unfold dw_finish at hrun
  cases heq : is_in_non_sigreturn_exit_syscall t5 with
  | none => rw [heq] at hrun; cases hrun
  | some exitFix =>
    rw [heq] at hrun
    refine ⟨exitFix, ?_, ?_, ?_, ?_⟩
    · have hfields : is_in_non_sigreturn_exit_syscall t1 =
          is_in_non_sigreturn_exit_syscall t5 := by
        have : t1.wait_status = t5.wait_status ∧
            t1.session_is_recording = t5.session_is_recording ∧
            t1.ev_is_syscall_event = t5.ev_is_syscall_event ∧
            t1.ev_is_sigreturn = t5.ev_is_sigreturn := by
          injection hrun with h
          subst h
          by_cases hn : (need4 || exitFix) = true <;> simp [hn]
        unfold is_in_non_sigreturn_exit_syscall
        rw [this.1, this.2.1, this.2.2.1, this.2.2.2]
      rw [hfields, heq]
    · injection hrun with h
      subst h
      by_cases hn : (need4 || exitFix) = true <;> by_cases hf : exitFix <;>
        simp_all
    · intro hn
      injection hrun with h
      subst h
      simp [hn]
    · injection hrun with h
      subst h
      by_cases hn : (need4 || exitFix) = true <;> simp [hn]

/-- The breakpoint-restore step restores original_syscallno and marks
the registers dirty whenever its guard conditions hold. -/
theorem dw_bkpt_step_spec (t : TaskState) (env : PtraceEnv)
    (more_ticks : Nat) (orig : Int) (regs3 : Registers) (need3 : Bool)
    (status2 pending2 : Nat) (r4 : Registers) (n4 : Bool)
    (h : dw_bkpt_step t env more_ticks orig regs3 need3 status2 pending2 =
      some (r4, n4))
    (hbp : env.breakpoint_at t.address_of_last_execution_resume = true)
    (hp : pending2 = SIGTRAP)
    (hev : ptrace_event_from_status status2 = 0) :
    r4.orig_syscallno = orig ∧ n4 = true := by
  unfold dw_bkpt_step at h
  subst hp
  simp only [hbp, hev, beq_self_eq_true, Bool.and_true, Bool.true_and] at h
  split at h
  · cases h
  · split at h
    · cases h
    · injection h with h2
      rw [if_pos trivial] at h2
      injection h2 with ha hb
      subst ha
      subst hb
      exact ⟨rfl, rfl⟩

/-- Output characterization of did_waitpid: the final registers are the
step-4 bank with the syscall-exit fixup applied when the committed stop
is a non-sigreturn syscall exit; the bank is written back when dirty;
and when the stop is a breakpoint-on-resume SIGTRAP the bank carries the
restored pre-resume original_syscallno. -/
theorem did_waitpid_shape (t : TaskState) (env : PtraceEnv) (status : Nat)
    (osi : Option Siginfo) (t1 : TaskState)
    (hrun : did_waitpid t env status osi = some t1) :
    ∃ (regs4 : Registers) (need4 : Bool) (b : Bool),
      is_in_non_sigreturn_exit_syscall t1 = some b ∧
      t1.registers = (if b then fixup_syscall_registers regs4 else regs4) ∧
      ((need4 || b) = true → t1.last_setregs = some t1.registers) ∧
      (env.breakpoint_at t.address_of_last_execution_resume = true →
        pending_sig_from_status t1.wait_status = some SIGTRAP →
        ptrace_event_from_status t1.wait_status = 0 →
        regs4.orig_syscallno = t.registers.orig_syscallno ∧ need4 = true) := by
  unfold did_waitpid at hrun
  dsimp only at hrun
  generalize hs1 : dw_refresh_regs t env status = s1 at hrun
  cases hp1 : pending_sig_from_status s1.2 with
  | none => rw [hp1] at hrun; cases hrun
  | some pending1 =>
    rw [hp1] at hrun
    dsimp only at hrun
    generalize hs2 : dw_siginfo_step t env osi pending1 s1.2 = s2 at hrun
    generalize hs3 : dw_singlestep_step s1.1 = s3 at hrun
    cases hp2 : pending_sig_from_status s2.2 with
    | none => rw [hp2] at hrun; cases hrun
    | some pending2 =>
      rw [hp2] at hrun
      dsimp only at hrun
      cases hs4 : dw_bkpt_step t env env.more_ticks t.registers.orig_syscallno
          s3.1 s3.2 s2.2 pending2 with
      | none => rw [hs4] at hrun; cases hrun
      | some step4 =>
        rw [hs4] at hrun
        dsimp only at hrun
        obtain ⟨b, hb1, hb2, hb3, hb4⟩ := dw_finish_spec _ _ _ hrun
        refine ⟨step4.1, step4.2, b, hb1, hb2, hb3, ?_⟩
        intro hbp hpend hev
        rw [hb4] at hpend hev
        dsimp only at hpend hev
        rw [hp2] at hpend
        injection hpend with hpend
        exact dw_bkpt_step_spec t env env.more_ticks
          t.registers.orig_syscallno s3.1 s3.2 s2.2 pending2 step4.1 step4.2
          (by rw [hs4]) hbp hpend hev

end RRTask

namespace RRTask


/-- A stop status always passes is_in_non_sigreturn_exit_syscall's
stop_sig assertion. -/
theorem is_in_some_of_stopped (t5 : TaskState)
    (h : stopped_from_status t5.wait_status = true) :
    ∃ e, is_in_non_sigreturn_exit_syscall t5 = some e := by
  unfold is_in_non_sigreturn_exit_syscall stop_sig_from_status
  rw [if_pos h]
  dsimp only
  split
  · exact ⟨_, rfl⟩
  · split
    · exact ⟨_, rfl⟩
    · exact ⟨_, rfl⟩

/-- dw_finish on the state did_waitpid commits always succeeds for a
stop status, preserving the committed wait status, siginfo and
exit-event flag. -/
theorem dw_finish_commit (t : TaskState) (regs : Registers) (tk : Nat)
    (status : Nat) (si : Siginfo) (seen : Bool) (need : Bool)
    (h : stopped_from_status status = true) :
    ∃ t2, dw_finish
        { t with
          registers := regs
          ticks := tk
          is_stopped := true
          wait_status := status
          pending_siginfo := si
          seen_ptrace_exit_event := seen
          last_setregs := none } need =
          some t2 ∧
      t2.wait_status = status ∧ t2.pending_siginfo = si ∧
      t2.seen_ptrace_exit_event = seen ∧
      t2.detected_unexpected_exit = t.detected_unexpected_exit := by
  obtain ⟨e, he⟩ := is_in_some_of_stopped
    { t with
      registers := regs
      ticks := tk
      is_stopped := true
      wait_status := status
      pending_siginfo := si
      seen_ptrace_exit_event := seen
      last_setregs := none } (by exact h)
  unfold dw_finish
  rw [he]
  dsimp only
  by_cases hn : (need || e) = true
  · rw [if_pos hn]
    exact ⟨_, rfl, rfl, rfl, rfl, rfl⟩
  · rw [if_neg hn]
    exact ⟨_, rfl, rfl, rfl, rfl, rfl⟩

/-- did_waitpid on a stop status that survives the GETREGS and
GETSIGINFO steps unchanged and whose pending signal is not SIGTRAP:
the run succeeds and the committed state carries the status, the
captured siginfo and the exit-event flag of the status. -/
theorem did_waitpid_total (t : TaskState) (env : PtraceEnv) (status : Nat)
    (osi : Option Siginfo) (p : Nat)
    (hstop : stopped_from_status status = true)
    (h1 : (dw_refresh_regs t env status).2 = status)
    (hp : pending_sig_from_status status = some p)
    (h2 : (dw_siginfo_step t env osi p status).2 = status)
    (hns : (p == SIGTRAP) = false) :
    ∃ t2, did_waitpid t env status osi = some t2 ∧
      t2.wait_status = status ∧
      t2.pending_siginfo = (dw_siginfo_step t env osi p status).1 ∧
      t2.seen_ptrace_exit_event = (t.seen_ptrace_exit_event ||
        (ptrace_event_from_status status == PTRACE_EVENT_EXIT)) ∧
      t2.detected_unexpected_exit = t.detected_unexpected_exit := by
  unfold did_waitpid
  dsimp only
  rw [h1, hp]
  dsimp only
  rw [h2, hp]
  dsimp only
  have hbk : dw_bkpt_step t env env.more_ticks t.registers.orig_syscallno
      (dw_singlestep_step (dw_refresh_regs t env status).1).1
      (dw_singlestep_step (dw_refresh_regs t env status).1).2 status p =
      some ((dw_singlestep_step (dw_refresh_regs t env status).1).1,
        (dw_singlestep_step (dw_refresh_regs t env status).1).2) := by
    unfold dw_bkpt_step
    simp only [hns, Bool.and_false, Bool.false_and, Bool.false_eq_true,
      if_false]
  rw [hbk]
  dsimp only
  exact dw_finish_commit t _ _ _ _ _ _ hstop

/-- The GETREGS step never changes a synthesized exit status. -/
theorem dw_refresh_exit_snd (t : TaskState) (env : PtraceEnv) :
    (dw_refresh_regs t env ptrace_exit_wait_status).2 =
      ptrace_exit_wait_status := by
  unfold dw_refresh_regs
  rw [if_pos (by decide)]
  cases env.getregs <;> rfl

/-- The GETREGS step keeps the status when the tracee is alive. -/
theorem dw_refresh_snd_alive (t : TaskState) (env : PtraceEnv)
    (status : Nat) (r : Registers) (h : env.getregs = some r) :
    (dw_refresh_regs t env status).2 = status := by
  unfold dw_refresh_regs
  by_cases hev : (ptrace_event_from_status status != PTRACE_EVENT_EXEC) = true
  · rw [if_pos hev, h]
  · rw [if_neg hev]

/-- Once a byte has been read, the mem-fd read loop never reopens the
fd again: the reopen counter of the result equals its value at entry. -/
theorem read_memfd_loop_no_reopen_after_progress (mem : Mem)
    (addr bufSize : Nat) :
    ∀ (preads : List PreadRes) (all_read : Nat) (acc : List Nat)
      (reopens : Nat) (res : Int × List Nat × Nat),
      0 < all_read →
      read_memfd_loop mem addr bufSize preads all_read acc reopens =
        some res →
      res.2.2 = reopens := by
  intro preads
  induction preads with
  | nil =>
    intro all_read acc reopens res hpos hrun
    rw [read_memfd_loop] at hrun
    by_cases hb : bufSize ≤ all_read
    · rw [if_pos hb] at hrun
      injection hrun with h
      subst h
      rfl
    · rw [if_neg hb] at hrun
      cases hrun
  | cons p rest ih =>
    intro all_read acc reopens res hpos hrun
    cases p with
    | err =>
      rw [read_memfd_loop] at hrun
      by_cases hb : bufSize ≤ all_read
      · rw [if_pos hb] at hrun
        injection hrun with h
        subst h
        rfl
      · rw [if_neg hb, if_pos hpos] at hrun
        injection hrun with h
        subst h
        rfl
    | ok n =>
      rw [read_memfd_loop] at hrun
      dsimp only at hrun
      by_cases hb : bufSize ≤ all_read
      · rw [if_pos hb] at hrun
        injection hrun with h
        subst h
        rfl
      · rw [if_neg hb] at hrun
        by_cases hn : min n (bufSize - all_read) = 0
        · rw [if_pos hn, if_neg (by omega)] at hrun
          injection hrun with h
          subst h
          rfl
        · rw [if_neg hn] at hrun
          exact ih _ _ _ _ (by omega) hrun

/-- While nothing has been read, each leading zero-byte errno-0 pread
adds one reopen, and the first other result ends the counting. -/
theorem read_memfd_loop_reopen_count (mem : Mem) (addr bufSize : Nat)
    (hsz : 0 < bufSize) :
    ∀ (preads : List PreadRes) (acc : List Nat) (reopens : Nat)
      (res : Int × List Nat × Nat),
      read_memfd_loop mem addr bufSize preads 0 acc reopens = some res →
      res.2.2 = reopens + (preads.takeWhile pread_is_zero).length := by
  intro preads
  induction preads with
  | nil =>
    intro acc reopens res hrun
    rw [read_memfd_loop] at hrun
    rw [if_neg (by omega)] at hrun
    cases hrun
  | cons p rest ih =>
    intro acc reopens res hrun
    cases p with
    | err =>
      rw [read_memfd_loop] at hrun
      rw [if_neg (by omega), if_neg (by omega)] at hrun
      injection hrun with h
      subst h
      simp [List.takeWhile, pread_is_zero]
    | ok n =>
      rw [read_memfd_loop] at hrun
      dsimp only at hrun
      rw [if_neg (by omega)] at hrun
      by_cases hn0 : min n (bufSize - 0) = 0
      · rw [if_pos hn0, if_pos rfl] at hrun
        have hn : n = 0 := by omega
        subst hn
        have := ih _ _ _ hrun
        rw [this]
        have hz : pread_is_zero (PreadRes.ok 0) = true := rfl
        simp [List.takeWhile, hz]
        omega
      · rw [if_neg hn0] at hrun
        have := read_memfd_loop_no_reopen_after_progress mem addr bufSize
          rest _ _ _ _ (by omega) hrun
        rw [this]
        have hnz : pread_is_zero (PreadRes.ok n) = false := by
          unfold pread_is_zero
          cases n with
          | zero => omega
          | succ m => rfl
        simp [List.takeWhile, hnz]

/-- A list equals the getD-map over the range of its length. -/
theorem map_range_getD (l : List Nat) :
    (List.range l.length).map (fun j => l.getD j 0) = l := by
  induction l with
  | nil => rfl
  | cons a l ih =>
    rw [List.length_cons, List.range_succ_eq_map, List.map_cons,
      List.map_map]
    have h1 : ((a :: l).getD 0 0) = a := rfl
    have h2 : ((fun j => (a :: l).getD j 0) ∘ Nat.succ) =
        fun j => l.getD j 0 := by
      funext j
      rfl
    rw [h1, h2, ih]

/-- Appending the next slice extends a range-map accumulator. -/
theorem range_map_append (f : Nat → Nat) (a b : Nat) :
    (List.range a).map f ++ (List.range b).map (fun i => f (a + i)) =
      (List.range (a + b)).map f := by
  rw [List.range_add, List.map_append, List.map_map]
  rfl

/-- A fully successful mem-fd write rewrites exactly the destination
range. -/
theorem write_memfd_loop_success (env : WriteEnv) (mem : Mem) (addr : Nat)
    (buf : List Nat) :
    ∀ (pwrites : List PwriteRes) (mem2 : Mem),
      write_memfd_loop env mem addr buf pwrites = some (true, mem2) →
      mem2 = updateRange mem addr buf := by
  intro pwrites
  induction pwrites with
  | nil =>
    intro mem2 h
    cases h
  | cons p rest ih =>
    intro mem2 h
    cases p with
    | ok n =>
      rw [write_memfd_loop] at h
      by_cases hn : min n buf.length = 0
      · rw [if_pos hn] at h
        exact ih _ h
      · rw [if_neg hn] at h
        injection h with h1
        injection h1 with hb hm
        have hlen : buf.length ≤ min n buf.length := of_decide_eq_true hb
        have hmin : min n buf.length = buf.length := by omega
        rw [← hm, hmin, List.take_length]
    | eperm =>
      rw [write_memfd_loop] at h
      by_cases hr : env.replaceOk = true
      · rw [if_pos hr] at h
        injection h with h1
        injection h1 with _ hm
        exact hm.symm
      · rw [if_neg hr] at h
        injection h with h1
        injection h1 with hb _
        cases hb
    | err =>
      rw [write_memfd_loop] at h
      injection h with h1
      injection h1 with hb _
      cases hb

/-- A mem-fd read that reports a full transfer returns exactly the
bytes of the source memory over the requested range. -/
theorem read_memfd_loop_success (mem : Mem) (addr bufSize : Nat) :
    ∀ (preads : List PreadRes) (all_read : Nat) (acc : List Nat)
      (reopens : Nat) (res : Int × List Nat × Nat),
      read_memfd_loop mem addr bufSize preads all_read acc reopens =
        some res →
      all_read ≤ bufSize →
      acc = (List.range all_read).map (fun i => mem (addr + i)) →
      res.1 = (bufSize : Int) →
      res.2.1 = (List.range bufSize).map (fun i => mem (addr + i)) := by
  intro preads
  induction preads with
  | nil =>
    intro all_read acc reopens res hrun hle hacc hrv
    rw [read_memfd_loop] at hrun
    by_cases hb : bufSize ≤ all_read
    · rw [if_pos hb] at hrun
      injection hrun with h
      subst h
      have : all_read = bufSize := by omega
      subst this
      exact hacc
    · rw [if_neg hb] at hrun
      cases hrun
  | cons p rest ih =>
    intro all_read acc reopens res hrun hle hacc hrv
    cases p with
    | err =>
      rw [read_memfd_loop] at hrun
      by_cases hb : bufSize ≤ all_read
      · rw [if_pos hb] at hrun
        injection hrun with h
        subst h
        have : all_read = bufSize := by omega
        subst this
        exact hacc
      · rw [if_neg hb] at hrun
        by_cases hpos : 0 < all_read
        · rw [if_pos hpos] at hrun
          injection hrun with h
          subst h
          simp only at hrv
          omega
        · rw [if_neg hpos] at hrun
          injection hrun with h
          subst h
          simp only at hrv
          omega
    | ok n =>
      rw [read_memfd_loop] at hrun
      dsimp only at hrun
      by_cases hb : bufSize ≤ all_read
      · rw [if_pos hb] at hrun
        injection hrun with h
        subst h
        have : all_read = bufSize := by omega
        subst this
        exact hacc
      · rw [if_neg hb] at hrun
        by_cases hn : min n (bufSize - all_read) = 0
        · rw [if_pos hn] at hrun
          by_cases h0 : all_read = 0
          · rw [if_pos h0] at hrun
            subst h0
            exact ih _ _ _ _ hrun (by omega) hacc hrv
          · rw [if_neg h0] at hrun
            injection hrun with h
            subst h
            simp only at hrv
            omega
        · rw [if_neg hn] at hrun
          refine ih _ _ _ _ hrun (by omega) ?_ hrv
          rw [hacc]
          have := range_map_append (fun i => mem (addr + i)) all_read
            (min n (bufSize - all_read))
          rw [← this]
          congr 1
          apply List.map_congr_left
          intro i _
          rw [Nat.add_assoc]

/-- The ptrace read loop never returns more than the requested bytes. -/
theorem read_ptrace_loop_len (wordOk : Nat → Bool) (mem : Mem)
    (addr bufSize : Nat) :
    ∀ (fuel nread : Nat), bufSize - nread ≤ fuel →
      (read_ptrace_loop wordOk mem addr bufSize nread).length ≤
        bufSize - nread := by
  intro fuel
  induction fuel with
  | zero =>
    intro nread h
    rw [read_ptrace_loop, dif_neg (by omega)]
    simp
  | succ fuel ih =>
    intro nread h
    rw [read_ptrace_loop]
    by_cases hlt : nread < bufSize
    · rw [dif_pos hlt]
      dsimp only
      by_cases hw : wordOk (addr + nread - (addr + nread) % word_size) = true
      · rw [if_pos hw]
        rw [List.length_append, List.length_map, List.length_range]
        have hmod : (addr + nread) % word_size < word_size :=
          Nat.mod_lt _ (by decide)
        have hrec := ih (nread +
          min (word_size - (addr + nread) % word_size) (bufSize - nread))
          (by simp only [word_size] at *; omega)
        simp only [word_size] at *
        omega
      · rw [if_neg hw]
        simp
    · rw [dif_neg hlt]
      simp

/-- A ptrace read that transferred every requested byte read exactly
the memory over the range, and every covering word was accessible. -/
theorem read_ptrace_loop_spec (wordOk : Nat → Bool) (mem : Mem)
    (addr bufSize : Nat) :
    ∀ (fuel nread : Nat), bufSize - nread ≤ fuel →
      (read_ptrace_loop wordOk mem addr bufSize nread).length =
        bufSize - nread →
      read_ptrace_loop wordOk mem addr bufSize nread =
          (List.range (bufSize - nread)).map
            (fun j => mem (addr + nread + j)) ∧
        ∀ k, nread ≤ k → k < bufSize →
          wordOk (addr + k - (addr + k) % word_size) = true := by
  intro fuel
  induction fuel with
  | zero =>
    intro nread hf _hlen
    rw [read_ptrace_loop, dif_neg (by omega)]
    constructor
    · rw [show bufSize - nread = 0 by omega]
      rfl
    · intro k hk1 hk2
      omega
  | succ fuel ih =>
    intro nread hf hlen
    by_cases hlt : nread < bufSize
    · rw [read_ptrace_loop, dif_pos hlt] at hlen ⊢
      dsimp only at hlen ⊢
      by_cases hw : wordOk (addr + nread - (addr + nread) % word_size) = true
      · rw [if_pos hw] at hlen ⊢
        rw [List.length_append, List.length_map, List.length_range] at hlen
        have hmod : (addr + nread) % word_size < word_size :=
          Nat.mod_lt _ (by decide)
        have hrest_le := read_ptrace_loop_len wordOk mem addr bufSize
          (bufSize - (nread +
            min (word_size - (addr + nread) % word_size) (bufSize - nread)))
          (nread +
            min (word_size - (addr + nread) % word_size) (bufSize - nread))
          (le_refl _)
        have hrest_len : (read_ptrace_loop wordOk mem addr bufSize
            (nread + min (word_size - (addr + nread) % word_size)
              (bufSize - nread))).length =
            bufSize - (nread + min (word_size - (addr + nread) % word_size)
              (bufSize - nread)) := by
          simp only [word_size] at *
          omega
        obtain ⟨hrec, hacc⟩ := ih
          (nread + min (word_size - (addr + nread) % word_size)
            (bufSize - nread))
          (by simp only [word_size] at *; omega) hrest_len
        constructor
        · rw [hrec]
          have happ := range_map_append (fun j => mem (addr + nread + j))
            (min (word_size - (addr + nread) % word_size) (bufSize - nread))
            (bufSize - (nread +
              min (word_size - (addr + nread) % word_size) (bufSize - nread)))
          rw [show min (word_size - (addr + nread) % word_size)
              (bufSize - nread) +
              (bufSize - (nread + min (word_size - (addr + nread) % word_size)
                (bufSize - nread))) = bufSize - nread by
            simp only [word_size] at *
            omega] at happ
          rw [← happ]
          congr 1
          apply List.map_congr_left
          intro i _
          rw [show addr + nread +
            (min (word_size - (addr + nread) % word_size) (bufSize - nread) +
              i) = addr + (nread +
                min (word_size - (addr + nread) % word_size)
                  (bufSize - nread)) + i by omega]
        · intro k hk1 hk2
          by_cases hk : k < nread +
              min (word_size - (addr + nread) % word_size) (bufSize - nread)
          · rw [show addr + k - (addr + k) % word_size =
                addr + nread - (addr + nread) % word_size by
              simp only [word_size] at *
              omega]
            exact hw
          · exact hacc k (by omega) hk2
      · rw [if_neg hw] at hlen
        simp only [List.length_nil] at hlen
        omega
    · rw [read_ptrace_loop, dif_neg hlt]
      constructor
      · rw [show bufSize - nread = 0 by omega]
        rfl
      · intro k hk1 hk2
        omega

/-- When every covering word of the remaining range is accessible, the
ptrace write loop (entered with errno clear) reports a full transfer
and rewrites exactly the remaining destination range. -/
theorem write_ptrace_loop_spec (wordOk : Nat → Bool) (addr : Nat)
    (buf : List Nat) :
    ∀ (fuel nwritten : Nat) (mem : Mem), buf.length - nwritten ≤ fuel →
      nwritten ≤ buf.length →
      (∀ k, nwritten ≤ k → k < buf.length →
        wordOk (addr + k - (addr + k) % word_size) = true) →
      (write_ptrace_loop wordOk addr buf nwritten false mem).1 =
          buf.length ∧
        ∀ a, (write_ptrace_loop wordOk addr buf nwritten false mem).2 a =
          if addr + nwritten ≤ a ∧ a < addr + buf.length then
            buf.getD (a - addr) 0
          else mem a := by
  intro fuel
  induction fuel with
  | zero =>
    intro nwritten mem hf hle _hacc
    rw [write_ptrace_loop, dif_neg (by omega)]
    constructor
    · show nwritten = buf.length
      omega
    · intro a
      rw [if_neg (by omega)]
  | succ fuel ih =>
    intro nwritten mem hf hle hacc
    by_cases hlt : nwritten < buf.length
    · rw [write_ptrace_loop, dif_pos hlt]
      dsimp only
      have hwOk : wordOk (addr + nwritten - (addr + nwritten) % word_size) =
          true := hacc nwritten (le_refl _) hlt
      simp only [hwOk, Bool.not_true, Bool.or_false, Bool.and_false,
        Bool.false_eq_true, if_false, if_true, Bool.false_or]
      have hmod : (addr + nwritten) % word_size < word_size :=
        Nat.mod_lt _ (by decide)
      obtain ⟨h1, h2⟩ := ih
        (nwritten + min (word_size - (addr + nwritten) % word_size)
          (buf.length - nwritten))
        (poke_word mem (addr + nwritten - (addr + nwritten) % word_size)
          (addr + nwritten)
          (min (word_size - (addr + nwritten) % word_size)
            (buf.length - nwritten)) buf nwritten)
        (by simp only [word_size] at *; omega)
        (by simp only [word_size] at *; omega)
        (fun k hk1 hk2 => hacc k (by omega) hk2)
      refine ⟨h1, ?_⟩
      intro a
      rw [h2 a]
      unfold poke_word
      by_cases c1 : addr + (nwritten +
          min (word_size - (addr + nwritten) % word_size)
            (buf.length - nwritten)) ≤ a ∧ a < addr + buf.length
      · rw [if_pos c1, if_pos (by omega)]
      · rw [if_neg c1]
        by_cases c2 : addr + nwritten ≤ a ∧ a < addr + buf.length
        · -- a lies in the slice written by this iteration
          rw [if_pos c2]
          have hin : addr + nwritten ≤ a ∧ a < addr + nwritten +
              min (word_size - (addr + nwritten) % word_size)
                (buf.length - nwritten) := by omega
          rw [if_pos (show addr + nwritten -
              (addr + nwritten) % word_size ≤ a ∧
              a < addr + nwritten - (addr + nwritten) % word_size +
                word_size by simp only [word_size] at *; omega)]
          rw [if_pos (by omega)]
          rw [show nwritten + (a - (addr + nwritten)) = a - addr by omega]
        · rw [if_neg c2]
          by_cases c3 : addr + nwritten - (addr + nwritten) % word_size ≤
              a ∧ a < addr + nwritten - (addr + nwritten) % word_size +
                word_size
          · rw [if_pos c3]
            rw [if_neg (by simp only [word_size] at *; omega)]
          · rw [if_neg c3]
    · rw [write_ptrace_loop, dif_neg hlt]
      constructor
      · show nwritten = buf.length
        omega
      · intro a
        rw [if_neg (by omega)]

/-! ## Claims -/

/-- C9: pending_sig_from_status reports no pending signal for a zero
status, for a TRACESYSGOOD syscall trap (stop signal SIGTRAP|0x80) and
for a SIGTRAP stop carrying a nonzero ptrace event; a plain SIGTRAP stop
is reported as SIGTRAP; any other stop signal is reported with its high
bit (0x80) masked off. -/
theorem c9_pending_sig_decoding (status : Nat) :
    pending_sig_from_status status = pending_sig_claim status := by
  unfold pending_sig_from_status pending_sig_claim stop_sig_from_status
  by_cases h0 : status == 0
  · simp [h0]
  · by_cases hst : stopped_from_status status
    · by_cases h85 : wstopsig status == SIGTRAP ||| 0x80
      · simp [h0, hst, h85]
      · by_cases h5 : wstopsig status == SIGTRAP
        · by_cases hev : ptrace_event_from_status status != 0
          · simp [h0, hst, h85, h5, hev]
          · simp [h0, hst, h85, h5, hev]
        · simp [h0, hst, h85, h5, land_mask_byte _ (wstopsig_lt status)]
    · simp [h0, hst]

/-- C3: set_debug_regs zeroes DR6 then DR7 before programming any
address register; on failure no further DR7 write was performed, so DR7
remains 0 and no watchpoint is enabled; and the call succeeds exactly
when at most four watchpoints were requested, every DR0..DR3 address
write succeeded and the final DR7 write succeeded. -/
theorem c3_set_debug_regs_atomic (env : DebugRegsEnv)
    (regs : List WatchConfig) (ok : Bool) (trace : List (Nat × Nat))
    (hrun : set_debug_regs env regs = some (ok, trace)) :
    trace.take 2 = [(6, 0), (7, 0)] ∧
    (ok = false →
      trace.filter (fun p => p.1 == 7) = [(7, 0)] ∧ dr7_value trace = 0) ∧
    (ok = true ↔
      regs.length ≤ 4 ∧ (∀ i, i < regs.length → env.addrPokeOk i = true) ∧
        env.dr7PokeOk = true) := by
  unfold set_debug_regs at hrun
  by_cases hlen : regs.length > 4
  · rw [if_pos hlen] at hrun
    injection hrun with h
    injection h with hok htr
    subst hok
    subst htr
    refine ⟨rfl, fun _ => ⟨rfl, rfl⟩, ?_⟩
    simp only [Bool.false_eq_true, false_iff, not_and]
    intro h
    omega
  · simp only [hlen, if_false] at hrun
    obtain ⟨rest, hr1, hr2, hr3⟩ :=
      set_debug_regs_loop_spec env regs 0 0 [(6, 0), (7, 0)] ok trace
        (by omega) hrun
    subst hr1
    refine ⟨rfl, ?_, ?_⟩
    · intro hfalse
      have hno7 := hr2 hfalse
      constructor
      · rw [List.filter_append]
        have : rest.filter (fun p => p.1 == 7) = [] := by
          rw [List.filter_eq_nil_iff]
          intro p hp
          simpa using hno7 p hp
        rw [this]
        rfl
      · unfold dr7_value
        rw [List.foldl_append]
        exact dr7_foldl_const rest _ hno7
    · rw [hr3]
      constructor
      · rintro ⟨h7, hall⟩
        exact ⟨by omega, fun i hi => by simpa using hall i hi, h7⟩
      · rintro ⟨_, hall, h7⟩
        exact ⟨h7, fun j hj => by simpa using hall j hj⟩

/-- Witness for C3 at a concrete failing run: the second address write
fails, the call reports failure, the trace is exactly the two zeroing
writes followed by the succeeding DR0 write, and DR7 stays 0. -/
theorem c3_set_debug_regs_atomic_witness :
    ([(6, 0), (7, 0), (0, 4096)] : List (Nat × Nat)).take 2 =
        [(6, 0), (7, 0)] ∧
    (false = false →
      ([(6, 0), (7, 0), (0, 4096)] : List (Nat × Nat)).filter
          (fun p => p.1 == 7) = [(7, 0)] ∧
        dr7_value [(6, 0), (7, 0), (0, 4096)] = 0) ∧
    (false = true ↔
      ([⟨0x1000, 4, 1⟩, ⟨0x2000, 8, 3⟩, ⟨0x3000, 1, 0⟩] :
            List WatchConfig).length ≤ 4 ∧
        (∀ i,
            i < ([⟨0x1000, 4, 1⟩, ⟨0x2000, 8, 3⟩, ⟨0x3000, 1, 0⟩] :
                  List WatchConfig).length →
              (fun i => i != 1) i = true) ∧
        true = true) :=
  c3_set_debug_regs_atomic ⟨fun i => i != 1, true⟩
    [⟨0x1000, 4, 1⟩, ⟨0x2000, 8, 3⟩, ⟨0x3000, 1, 0⟩] false
    [(6, 0), (7, 0), (0, 4096)] (by rfl)

/-- C10: with more than four watchpoint entries set_debug_regs returns
false, the debug-register writes performed are exactly the DR6 and DR7
zeroings done before the size check, and no watchpoint is left enabled
(DR7 is 0). -/
theorem c10_set_debug_regs_too_many (env : DebugRegsEnv)
    (regs : List WatchConfig) (hlen : regs.length > 4) :
    set_debug_regs env regs = some (false, [(6, 0), (7, 0)]) ∧
      dr7_value [(6, 0), (7, 0)] = 0 := by
  unfold set_debug_regs
  simp [hlen]
  rfl

/-- Witness for C10 at five one-byte watchpoints. -/
theorem c10_set_debug_regs_too_many_witness :
    set_debug_regs ⟨fun _ => true, true⟩
        [⟨1, 1, 0⟩, ⟨2, 1, 0⟩, ⟨3, 1, 0⟩, ⟨4, 1, 0⟩, ⟨5, 1, 0⟩] =
        some (false, [(6, 0), (7, 0)]) ∧
      dr7_value [(6, 0), (7, 0)] = 0 :=
  c10_set_debug_regs_too_many ⟨fun _ => true, true⟩
    [⟨1, 1, 0⟩, ⟨2, 1, 0⟩, ⟨3, 1, 0⟩, ⟨4, 1, 0⟩, ⟨5, 1, 0⟩] (by decide)

/-- C1: every completed stop committed by did_waitpid whose committed
status is a syscall-exit stop (stop signal SIGTRAP|0x80) not belonging
to the sigreturn family has a normalized register cache afterwards: on
x86-64 the TF bit (bit 8) of R11 is 0, RCX is -1 (the all-ones 64-bit
word) and the flags are 0x246; on x86 EFLAGS is 0x246; and the
normalized registers were written back to the tracee via
PTRACE_SETREGS. -/
theorem c1_syscall_exit_normalization (t : TaskState) (env : PtraceEnv)
    (status : Nat) (osi : Option Siginfo) (t1 : TaskState)
    (hrun : did_waitpid t env status osi = some t1)
    (hsig : wstopsig t1.wait_status = SIGTRAP ||| 0x80)
    (hrec : t1.session_is_recording = true →
      t1.ev_is_syscall_event = false ∨ t1.ev_is_sigreturn = false) :
    (t1.registers.arch = SupportedArch.x86_64 →
      t1.registers.r11.testBit 8 = false ∧
      t1.registers.cx = 0xffffffffffffffff ∧
      t1.registers.flags = 0x246) ∧
    (t1.registers.arch = SupportedArch.x86 → t1.registers.flags = 0x246) ∧
    t1.last_setregs = some t1.registers := by
  obtain ⟨regs4, need4, b, hb1, hb2, hb3, _⟩ :=
    did_waitpid_shape t env status osi t1 hrun
  have hb : b = true := by
    unfold is_in_non_sigreturn_exit_syscall at hb1
    cases hss : stop_sig_from_status t1.wait_status with
    | none => rw [hss] at hb1; cases hb1
    | some sig =>
      rw [hss] at hb1
      have hsigv : sig = SIGTRAP ||| 0x80 := by
        unfold stop_sig_from_status at hss
        split at hss
        · injection hss with h; rw [← h, hsig]
        · cases hss
      rw [hsigv] at hb1
      simp only [bne_self_eq_false, Bool.false_eq_true, if_false] at hb1
      by_cases hrecb : t1.session_is_recording
      · rw [if_pos hrecb] at hb1
        injection hb1 with hb1
        rcases hrec hrecb with h | h
        · simp only [h, Bool.not_false, Bool.true_or] at hb1
          exact hb1.symm
        · simp only [h, Bool.not_false, Bool.or_true] at hb1
          exact hb1.symm
      · rw [if_neg hrecb] at hb1
        injection hb1 with hb1
        exact hb1.symm
  rw [hb] at hb2 hb3
  simp only [if_true] at hb2
  refine ⟨?_, ?_, hb3 (by simp)⟩
  · intro harch
    rw [hb2] at harch ⊢
    unfold fixup_syscall_registers at harch ⊢
    by_cases ha : regs4.arch == SupportedArch.x86_64
    · simp only [ha, if_true]
      refine ⟨?_, trivial, trivial⟩
      rw [Nat.testBit_land,
        show (18446744073709551359 : Nat).testBit 8 = false by decide]
      simp
    · simp only [ha, Bool.false_eq_true, if_false] at harch
      simp only [beq_iff_eq] at ha
      exact absurd harch ha
  · intro harch
    rw [hb2] at harch ⊢
    unfold fixup_syscall_registers at harch ⊢
    by_cases ha : regs4.arch == SupportedArch.x86_64
    · simp only [ha, if_true] at harch
      simp only [beq_iff_eq] at ha
      rw [ha] at harch
      cases harch
    · simp only [ha, Bool.false_eq_true, if_false]

/-- C2: for every stop committed by did_waitpid whose stop signal is
SIGTRAP with no ptrace event, where the AddressSpace reports a
breakpoint at address_of_last_execution_resume and the instruction
pointer is one breakpoint-instruction length past it, the cached
original_syscallno after normalization equals its value immediately
before the resume (the pre-call register cache) and the restored
registers were written back to the tracee. -/
theorem c2_breakpoint_resume_restore (t : TaskState) (env : PtraceEnv)
    (status : Nat) (osi : Option Siginfo) (t1 : TaskState)
    (hrun : did_waitpid t env status osi = some t1)
    (hbp : env.breakpoint_at t.address_of_last_execution_resume = true)
    (hsig : wstopsig t1.wait_status = SIGTRAP)
    (hev : ptrace_event_from_status t1.wait_status = 0)
    (_hip : t1.registers.ip =
      t.address_of_last_execution_resume + bkpt_insn_length t1.registers.arch) :
    t1.registers.orig_syscallno = t.registers.orig_syscallno ∧
    t1.last_setregs = some t1.registers := by
  obtain ⟨regs4, need4, b, hb1, hb2, hb3, hbk⟩ :=
    did_waitpid_shape t env status osi t1 hrun
  have hstop : stopped_from_status t1.wait_status = true := by
    unfold is_in_non_sigreturn_exit_syscall stop_sig_from_status at hb1
    by_cases h : stopped_from_status t1.wait_status
    · exact h
    · rw [if_neg (by simp [h])] at hb1
      cases hb1
  have hpend : pending_sig_from_status t1.wait_status = some SIGTRAP := by
    unfold pending_sig_from_status stop_sig_from_status
    have hne : (t1.wait_status == 0) = false := by
      by_cases h0 : t1.wait_status = 0
      · rw [h0] at hstop
        exact absurd hstop (by decide)
      · simp [h0]
    rw [hne]
    simp only [Bool.false_eq_true, if_false, hstop, if_true, hsig]
    rw [show ((SIGTRAP : Nat) == SIGTRAP ||| 0x80) = false by decide]
    simp only [Bool.false_eq_true, if_false, beq_self_eq_true, if_true]
    rw [hev]
    simp [SIGTRAP]
  have hb : b = false := by
    unfold is_in_non_sigreturn_exit_syscall stop_sig_from_status at hb1
    rw [if_pos hstop, hsig] at hb1
    dsimp only at hb1
    rw [if_pos (show ((SIGTRAP : Nat) != SIGTRAP ||| 0x80) = true by decide)]
      at hb1
    injection hb1 with hb1
    exact hb1.symm
  obtain ⟨ho, hn⟩ := hbk hbp hpend hev
  rw [hb] at hb2 hb3
  simp only [Bool.false_eq_true, if_false] at hb2
  refine ⟨?_, ?_⟩
  · rw [hb2, ho]
  · exact hb3 (by simp [hn])

/-- Concrete register bank for the C1/C2 witnesses. -/
def w1regs : Registers :=
  { arch := SupportedArch.x86_64, ip := 100, r11 := 0x1ff, cx := 7,
    flags := 0x346, orig_syscallno := 42 }

/-- Concrete task state for the C1/C2 witnesses. -/
def w1task : TaskState :=
  { registers := w1regs, ticks := 3, is_stopped := false, unstable := false,
    wait_status := 0, pending_siginfo := ⟨0, 0, 0⟩,
    seen_ptrace_exit_event := false, detected_unexpected_exit := false,
    extra_registers_known := false, address_of_last_execution_resume := 100,
    session_is_recording := false, ev_is_syscall_event := false,
    ev_is_sigreturn := false, last_setregs := none }

/-- Ptrace oracle for the C1 witness. -/
def w1env : PtraceEnv :=
  { more_ticks := 0, getregs := some w1regs, getsiginfo := some ⟨5, 0, 0⟩,
    breakpoint_at := fun _ => false }

/-- The register bank C1's witness run ends with: TF cleared from R11,
RCX forced to all ones, flags 0x246. -/
def w1outRegs : Registers :=
  { arch := SupportedArch.x86_64, ip := 100, r11 := 255,
    cx := 0xffffffffffffffff, flags := 0x246, orig_syscallno := 42 }

/-- The state C1's witness run commits. -/
def w1t1 : TaskState :=
  { registers := w1outRegs,
    ticks := 3, is_stopped := true, unstable := false, wait_status := 0x857f,
    pending_siginfo := ⟨0, 0, 0⟩, seen_ptrace_exit_event := false,
    detected_unexpected_exit := false, extra_registers_known := false,
    address_of_last_execution_resume := 100, session_is_recording := false,
    ev_is_syscall_event := false, ev_is_sigreturn := false,
    last_setregs := some w1outRegs }

/-- Witness for C1 at a concrete syscall-exit stop (status 0x857f). -/
theorem c1_syscall_exit_normalization_witness :
    (w1t1.registers.arch = SupportedArch.x86_64 →
      w1t1.registers.r11.testBit 8 = false ∧
      w1t1.registers.cx = 0xffffffffffffffff ∧
      w1t1.registers.flags = 0x246) ∧
    (w1t1.registers.arch = SupportedArch.x86 →
      w1t1.registers.flags = 0x246) ∧
    w1t1.last_setregs = some w1t1.registers :=
  c1_syscall_exit_normalization w1task w1env 0x857f none w1t1 (by decide)
    (by decide) (by decide)

/-- GETREGS result for the C2 witness: the kernel has reset
original_syscallno to -1 and the IP sits one byte past the resume
address. -/
def w2regs : Registers :=
  { arch := SupportedArch.x86_64, ip := 101, r11 := 0, cx := 0, flags := 0,
    orig_syscallno := -1 }

/-- Ptrace oracle for the C2 witness: a breakpoint is reported at every
address. -/
def w2env : PtraceEnv :=
  { more_ticks := 0, getregs := some w2regs, getsiginfo := some ⟨5, 0, 0⟩,
    breakpoint_at := fun _ => true }

/-- The register bank C2's witness run ends with: original_syscallno
restored to 42. -/
def w2outRegs : Registers :=
  { arch := SupportedArch.x86_64, ip := 101, r11 := 0, cx := 0, flags := 0,
    orig_syscallno := 42 }

/-- The state C2's witness run commits. -/
def w2t1 : TaskState :=
  { registers := w2outRegs,
    ticks := 3, is_stopped := true, unstable := false, wait_status := 0x57f,
    pending_siginfo := ⟨5, 0, 0⟩, seen_ptrace_exit_event := false,
    detected_unexpected_exit := false, extra_registers_known := false,
    address_of_last_execution_resume := 100, session_is_recording := false,
    ev_is_syscall_event := false, ev_is_sigreturn := false,
    last_setregs := some w2outRegs }

/-- Witness for C2 at a concrete breakpoint-on-resume SIGTRAP stop. -/
theorem c2_breakpoint_resume_restore_witness :
    w2t1.registers.orig_syscallno = w1task.registers.orig_syscallno ∧
    w2t1.last_setregs = some w2t1.registers :=
  c2_breakpoint_resume_restore w1task w2env 0x57f none w2t1 (by decide)
    (by decide) (by decide) (by rfl) (by rfl)



/-- Trivial tracee-memory and AddressSpace oracles for the C6
witness. -/
def w6env : ExitHookEnv :=
  { mapping_start_of := fun _ => 0, mapping_end_of := fun _ => 0,
    read_iovecs := fun _ _ => [] }

/-- Registers of a failed mprotect(0x1000, 0x2000, PROT_READ): result
-ENOMEM. -/
def w6r : SyscallRegs :=
  { arg1 := 4096, arg2 := 8192, arg3 := 1, arg5 := 0,
    syscall_result := -12 }

/-- C6: when the registers show a failed syscall, on_syscall_exit_arch
performs no shadow-state update — AddressSpace, FdTable, prname and
thread_areas are unchanged — except for mprotect, whose
AddressSpace.protect(addr, len, prot) update is applied even on
failure. -/
theorem c6_failed_syscall_shadow (a : SupportedArch) (env : ExitHookEnv)
    (syscallno : Int) (r : SyscallRegs)
    (hfail : syscall_failed r = true) :
    on_syscall_exit_arch (archSyscalls a) env syscallno r =
      some (if syscallno == (archSyscalls a).mprotect then
              [ShadowAction.protect r.arg1 r.arg2 r.arg3]
            else []) := by
  unfold on_syscall_exit_arch
  by_cases hmp : syscallno == (archSyscalls a).mprotect
  · have hs : syscallno = (archSyscalls a).mprotect := by
      simpa using hmp
    subst hs
    cases a <;> simp [archSyscalls, x86Syscalls, x64Syscalls, hfail]
  · simp [hfail, hmp]

/-- Witness for C6 at a failed x86-64 mprotect (syscall 10,
result -ENOMEM). -/
theorem c6_failed_syscall_shadow_witness :
    on_syscall_exit_arch (archSyscalls SupportedArch.x86_64) w6env 10 w6r =
      some (if (10 : Int) ==
              (archSyscalls SupportedArch.x86_64).mprotect then
              [ShadowAction.protect w6r.arg1 w6r.arg2 w6r.arg3]
            else []) :=
  c6_failed_syscall_shadow SupportedArch.x86_64 w6env 10 w6r (by decide)

/-- Task state for the C4 witness: a recording-session task. -/
def w4task : TaskState :=
  { w1task with session_is_recording := true }

/-- The state the C4 witness's suppressed resume leaves behind. -/
def w4t1 : TaskState :=
  { w1task with session_is_recording := true,
                detected_unexpected_exit := true }

/-- Wait environment for the C4 witness: the outcome list is empty
because the synthesized-exit path never calls waitpid. -/
def w4wenv : WaitEnv :=
  { outcomes := [], penv := w1env, ticks_fd := 9 }

/-- C4: during recording, when resume_execution's non-blocking waitpid
race guard reports a PTRACE_EVENT_EXIT, the ptrace continuation request
is not issued and detected_unexpected_exit is set; the next wait call
then commits a synthesized PTRACE_EVENT_EXIT stop, clears the flag and
returns without calling waitpid. -/
theorem c4_resume_race_and_synthesized_exit (t : TaskState) (renv : ResumeEnv) (wenv : WaitEnv)
    (status : Nat) (t1 : TaskState) (issued : Bool)
    (hrec : t.session_is_recording = true)
    (hstable : t.unstable = false)
    (hnb : renv.nonblock_wait = some status)
    (hexit : ptrace_event_from_status status = PTRACE_EVENT_EXIT)
    (hrun : resume_execution t renv = some (t1, issued)) :
    issued = false ∧ t1.detected_unexpected_exit = true ∧
    (wait t1 wenv).map (fun w =>
        (w.task.wait_status, w.task.detected_unexpected_exit,
          w.task.seen_ptrace_exit_event, w.called_waitpid)) =
      some (ptrace_exit_wait_status, false, true, false) := by
  unfold resume_execution at hrun
  simp only [hrec, hnb, hexit, eq_self_iff_true, if_true, bne_self_eq_false,
    Bool.false_eq_true, if_false, Bool.not_true] at hrun
  injection hrun with h
  injection h with h1 h2
  subst h1
  subst h2
  refine ⟨rfl, rfl, ?_⟩
  unfold wait
  dsimp only
  rw [hstable]
  rw [if_neg (by decide)]
  rw [if_pos rfl]
  obtain ⟨t2, ht2, hw, hsi, hseen, hdet⟩ :=
    did_waitpid_total _ wenv.penv ptrace_exit_wait_status none 0
      (by decide) (dw_refresh_exit_snd _ wenv.penv) (by decide) (by rfl)
      (by decide)
  rw [ht2]
  dsimp only [Option.map]
  rw [hw, hseen]
  dsimp only
  rw [show (ptrace_event_from_status ptrace_exit_wait_status ==
      PTRACE_EVENT_EXIT) = true by decide]
  rw [Bool.or_true]

/-- Witness for C4 at a concrete PTRACE_EVENT_EXIT race (status
0x6057f). -/
theorem c4_resume_race_and_synthesized_exit_witness :
    false = false ∧ w4t1.detected_unexpected_exit = true ∧
    (wait w4t1 w4wenv).map (fun w =>
        (w.task.wait_status, w.task.detected_unexpected_exit,
          w.task.seen_ptrace_exit_event, w.called_waitpid)) =
      some (ptrace_exit_wait_status, false, true, false) :=
  c4_resume_race_and_synthesized_exit w4task ⟨some 0x6057f⟩ w4wenv 0x6057f
    w4t1 false (by rfl) (by rfl) (by rfl) (by decide) (by decide)

/-- Wait status of the C7 witness: PTRACE_EVENT_STOP with stop signal
SIGSTOP. -/
def w7status : Nat := (128 <<< 16) ||| (19 <<< 8) ||| 0x7f

/-- Wait environment for the C7 witness: one EINTR (sending the
PTRACE_INTERRUPT) followed by the event-stop. -/
def w7env : WaitEnv :=
  { outcomes := [WaitOutcome.eintr false, WaitOutcome.ret w7status],
    penv := w1env, ticks_fd := 9 }

/-- C7: when wait sent a PTRACE_INTERRUPT and the resulting status is a
PTRACE_EVENT_STOP whose stop signal is SIGTRAP, SIGSTOP or 0, wait
rewrites the status to the synthetic time-slice-expired signal, commits
it via did_waitpid with a forged siginfo (si_signo = scheduler signal,
si_fd = ticks fd, si_code = POLL_IN), and expires the scheduler
timeslice exactly when recording. -/
theorem c7_interrupt_timeslice_rewrite (t : TaskState) (env : WaitEnv) (s : Nat) (r : Registers)
    (hun : t.unstable = false)
    (hdet : t.detected_unexpected_exit = false)
    (hloop : wait_loop env.outcomes false = some (s, true))
    (hstop : stopped_from_status s = true)
    (hev : ptrace_event_from_status s = PTRACE_EVENT_STOP)
    (hsig : is_signal_triggered_by_ptrace_interrupt (wstopsig s) = true)
    (hreg : env.penv.getregs = some r) :
    (wait t env).map (fun w =>
      (w.task.wait_status, w.task.pending_siginfo, w.expired_timeslice,
        w.called_waitpid)) =
    some ((TIME_SLICE_SIGNAL <<< 8) ||| 0x7f,
      ⟨TIME_SLICE_SIGNAL, env.ticks_fd, POLL_IN⟩, t.session_is_recording,
      true) := by
  unfold wait
  rw [hun, hdet]
  rw [if_neg (by decide), if_neg (by decide)]
  rw [hloop]
  dsimp only
  rw [hstop]
  simp only [Bool.not_true, Bool.false_and, Bool.false_eq_true, if_false]
  rw [hev]
  rw [hsig]
  rw [if_pos (by decide)]
  obtain ⟨t2, ht2, hw, hsi, hseen, hdet2⟩ :=
    did_waitpid_total t env.penv ((TIME_SLICE_SIGNAL <<< 8) ||| 0x7f)
      (some ⟨TIME_SLICE_SIGNAL, env.ticks_fd, POLL_IN⟩) 16
      (by decide)
      (dw_refresh_snd_alive t env.penv _ r hreg)
      (by decide) (by rfl) (by decide)
  rw [ht2]
  dsimp only [Option.map]
  rw [hw, hsi]
  rfl

/-- Witness for C7 at a concrete interrupted wait. -/
theorem c7_interrupt_timeslice_rewrite_witness :
    (wait w1task w7env).map (fun w =>
      (w.task.wait_status, w.task.pending_siginfo, w.expired_timeslice,
        w.called_waitpid)) =
    some ((TIME_SLICE_SIGNAL <<< 8) ||| 0x7f,
      ⟨TIME_SLICE_SIGNAL, w7env.ticks_fd, POLL_IN⟩,
      w1task.session_is_recording, true) :=
  c7_interrupt_timeslice_rewrite w1task w7env w7status w1regs (by rfl)
    (by rfl) (by decide) (by decide) (by decide) (by decide) (by rfl)


/-- pread64 oracle of the C5 counterexample: two zero-byte errno-0
results at offset 0, then a one-byte read. -/
def w5env : ReadEnv :=
  { memFdOpen := true, wordOk := fun _ => true,
    preads := [PreadRes.ok 0, PreadRes.ok 0, PreadRes.ok 1] }

/-- Tracee memory of the C5 runs. -/
def w5mem : Mem := fun _ => 7

/-- C5 counterexample: the claim bounds the reopen-and-retry at one per
call, but a run whose first two preads return zero bytes with errno 0
reopens the mem fd twice (the source has no once-only guard in its
while loop). -/
theorem c5_reopen_twice_counterexample :
    read_bytes_fallible w5env w5mem 0 1 = some (1, [7], 2) ∧ ¬(2 ≤ 1) :=
  ⟨by decide, by decide⟩

/-- C5 (amended): in read_bytes_fallible's mem-fd path the
reopen-and-retry happens only while no bytes have yet been read in the
call; the number of reopens equals the length of the leading run of
zero-byte errno-0 pread results, which is not bounded by one. -/
theorem c5_reopen_only_before_first_byte (env : ReadEnv) (mem : Mem)
    (addr bufSize : Nat) (res : Int × List Nat × Nat)
    (hfd : env.memFdOpen = true) (hpos : 0 < bufSize)
    (hrun : read_bytes_fallible env mem addr bufSize = some res) :
    res.2.2 = (env.preads.takeWhile pread_is_zero).length := by
  unfold read_bytes_fallible at hrun
  rw [if_neg (by omega), hfd] at hrun
  simp only [Bool.not_true, Bool.false_eq_true, if_false] at hrun
  have := read_memfd_loop_reopen_count mem addr bufSize hpos env.preads
    [] 0 res hrun
  omega

/-- Witness for C5's amended claim at the concrete double-reopen run. -/
theorem c5_reopen_only_before_first_byte_witness :
    ((1 : Int), ([7] : List Nat), 2).2.2 =
      (w5env.preads.takeWhile pread_is_zero).length :=
  c5_reopen_only_before_first_byte w5env w5mem 0 1 (1, [7], 2) (by rfl)
    (by decide) (by decide)


/-- The memory the C8 witness's write produces. -/
def w8mem2 : Mem := updateRange (fun _ => 0) 5 [1, 2, 3]

/-- C8: writing a byte buffer with write_bytes_helper and reading the
same number of bytes back from the same address with
read_bytes_fallible yields the original bytes whenever both calls fully
succeed, both on the mem-fd path and on the word-aligned ptrace
PEEKDATA/POKEDATA fallback path (the kernel's word accessibility is
shared between the paired calls). -/
theorem c8_write_read_round_trip (memFdOpen : Bool) (wordOk : Nat → Bool)
    (replaceOk : Bool) (pwrites : List PwriteRes) (preads : List PreadRes)
    (mem mem2 : Mem) (addr : Nat) (buf : List Nat) (rv : Int)
    (bytes : List Nat) (reopens : Nat)
    (hw : write_bytes_helper ⟨memFdOpen, wordOk, replaceOk⟩ mem addr buf
      pwrites = some (true, mem2))
    (hr : read_bytes_fallible ⟨memFdOpen, wordOk, preads⟩ mem2 addr
      buf.length = some (rv, bytes, reopens))
    (hrv : rv = (buf.length : Int)) :
    bytes = buf := by
  by_cases hz : buf.length = 0
  · have hb : buf = [] := List.length_eq_zero.mp hz
    subst hb
    unfold read_bytes_fallible at hr
    rw [if_pos (show ([] : List Nat).length = 0 from rfl)] at hr
    injection hr with h
    injection h with _ h
    injection h with hbytes _
    exact hbytes.symm
  · unfold write_bytes_helper at hw
    rw [if_neg hz] at hw
    unfold read_bytes_fallible at hr
    rw [if_neg hz] at hr
    cases memFdOpen with
    | false =>
      dsimp only at hw hr
      rw [if_pos (show (!false) = true from rfl)] at hw hr
      injection hw with hw
      injection hw with _hdec hm
      injection hr with hr
      injection hr with hrv2 hr
      injection hr with hbytes _
      have hlen0 : (read_ptrace_loop wordOk mem2 addr buf.length 0).length =
          buf.length - 0 := by
        have := hrv2.trans hrv
        omega
      obtain ⟨hread, hacc⟩ := read_ptrace_loop_spec wordOk mem2 addr
        buf.length buf.length 0 (by omega) hlen0
      obtain ⟨_h1, h2⟩ := write_ptrace_loop_spec wordOk addr buf buf.length
        0 mem (by omega) (by omega)
        (fun k _hk1 hk2 => hacc k (by omega) hk2)
      rw [← hbytes, hread]
      have hpt : ∀ j, j < buf.length →
          mem2 (addr + 0 + j) = buf.getD j 0 := by
        intro j hj
        rw [← hm, h2 (addr + 0 + j), if_pos (by omega)]
        rw [show addr + 0 + j - addr = j by omega]
      calc (List.range (buf.length - 0)).map (fun j => mem2 (addr + 0 + j))
          = (List.range buf.length).map (fun j => buf.getD j 0) := by
            rw [show buf.length - 0 = buf.length by omega]
            apply List.map_congr_left
            intro i hi
            exact hpt i (List.mem_range.mp hi)
        _ = buf := map_range_getD buf
    | true =>
      dsimp only at hw hr
      rw [if_neg (by decide)] at hw hr
      have hm := write_memfd_loop_success ⟨true, wordOk, replaceOk⟩ mem addr
        buf pwrites mem2 hw
      have hbytes := read_memfd_loop_success mem2 addr buf.length preads 0
        [] 0 (rv, bytes, reopens) hr (by omega) (by rfl) (by exact hrv)
      dsimp only at hbytes
      rw [hbytes]
      calc (List.range buf.length).map (fun i => mem2 (addr + i))
          = (List.range buf.length).map (fun j => buf.getD j 0) := by
            apply List.map_congr_left
            intro i hi
            rw [hm]
            unfold updateRange
            rw [if_pos (by
              have := List.mem_range.mp hi
              omega)]
            rw [show addr + i - addr = i by omega]
        _ = buf := map_range_getD buf

/-- Witness for C8 on the mem-fd path: write [1,2,3] at address 5, read
it back. -/
theorem c8_write_read_round_trip_witness : ([1, 2, 3] : List Nat) = [1, 2, 3] :=
  c8_write_read_round_trip true (fun _ => true) false [PwriteRes.ok 3]
    [PreadRes.ok 3] (fun _ => 0) w8mem2 5 [1, 2, 3] 3 [1, 2, 3] 0 (by rfl)
    (by decide) (by decide)

end RRTask
